import Mathlib

/-!
Verification of the TXT-record / printer-discovery pipeline of the
cups-airprint repository (src/app/airprint-generate.py and
src/app/avahi-search.py).

Python strings are modelled as lists of Unicode code points (`List Nat`);
`bytes` values are modelled as lists of byte values (`List Nat`, each < 256).
`str.encode` / `bytes.decode` with the UTF-8 codec are modelled by an
executable strict UTF-8 encoder and decoder.  Fallible Python code is
modelled with `Except PyErr`.
-/

/-- Python exceptions that the modelled code can raise. -/
inductive PyErr where
  | indexError
  | attributeError
deriving DecidableEq, Repr

/-- Code points of a Lean string literal, used to write Python `str`
constants as `List Nat` values. -/
def S (s : String) : List Nat :=
  s.toList.map Char.toNat

/-- A Unicode scalar value: any code point outside the surrogate range
`U+D800 .. U+DFFF` and below `U+110000`.  Python `str` values that
`encode('utf-8')` accepts consist of such code points. -/
def isScalar (c : Nat) : Bool :=
  decide (c < 0xD800) || (decide (0xE000 ≤ c) && decide (c < 0x110000))

/-- UTF-8 encoding of one code point (the byte sequence Python's
`str.encode('utf-8')` produces for it). -/
def utf8EncodeChar (c : Nat) : List Nat :=
  if c < 0x80 then [c]
  else if c < 0x800 then [0xC0 + c / 64, 0x80 + c % 64]
  else if c < 0x10000 then [0xE0 + c / 4096, 0x80 + c / 64 % 64, 0x80 + c % 64]
  else [0xF0 + c / 262144, 0x80 + c / 4096 % 64, 0x80 + c / 64 % 64, 0x80 + c % 64]

/-- UTF-8 encoding of a whole string, modelling `str.encode('utf-8')`. -/
def utf8Encode (s : List Nat) : List Nat :=
  s.flatMap utf8EncodeChar

/-- Decode the first UTF-8 sequence of a byte list, returning the code
point and the remaining bytes; `none` on any ill-formed prefix.  The
branch conditions implement strict (shortest-form, surrogate-free,
`≤ U+10FFFF`) UTF-8, exactly what Python's `bytes.decode('utf-8')`
accepts. -/
def decodeOne : List Nat → Option (Nat × List Nat)
  | [] => none
  | b :: bs =>
    if b < 0x80 then some (b, bs)
    else if b < 0xC2 then none
    else if b < 0xE0 then
      match bs with
      | b1 :: bs1 =>
        if 0x80 ≤ b1 ∧ b1 < 0xC0 then
          some ((b - 0xC0) * 64 + (b1 - 0x80), bs1)
        else none
      | [] => none
    else if b < 0xF0 then
      match bs with
      | b1 :: b2 :: bs2 =>
        if (if b = 0xE0 then 0xA0 ≤ b1 ∧ b1 < 0xC0
            else if b = 0xED then 0x80 ≤ b1 ∧ b1 < 0xA0
            else 0x80 ≤ b1 ∧ b1 < 0xC0) ∧ 0x80 ≤ b2 ∧ b2 < 0xC0 then
          some ((b - 0xE0) * 4096 + (b1 - 0x80) * 64 + (b2 - 0x80), bs2)
        else none
      | _ => none
    else if b < 0xF5 then
      match bs with
      | b1 :: b2 :: b3 :: bs3 =>
        if (if b = 0xF0 then 0x90 ≤ b1 ∧ b1 < 0xC0
            else if b = 0xF4 then 0x80 ≤ b1 ∧ b1 < 0x90
            else 0x80 ≤ b1 ∧ b1 < 0xC0) ∧ 0x80 ≤ b2 ∧ b2 < 0xC0 ∧ 0x80 ≤ b3 ∧ b3 < 0xC0 then
          some ((b - 0xF0) * 262144 + (b1 - 0x80) * 4096 + (b2 - 0x80) * 64 + (b3 - 0x80), bs3)
        else none
      | _ => none
    else none

/-- Fuelled UTF-8 decoding loop; `fuel ≥ bs.length` always suffices
because `decodeOne` consumes at least one byte. -/
def utf8DecodeLoop : Nat → List Nat → Option (List Nat)
  | 0, bs => if bs = [] then some [] else none
  | fuel + 1, bs =>
    match decodeOne bs with
    | none => if bs = [] then some [] else none
    | some (c, rest) => (utf8DecodeLoop fuel rest).map (fun l => c :: l)

/-- Strict UTF-8 decoding of a byte list, modelling
`bytes.decode('utf-8')`: `some` of the code points on success, `none`
when Python would raise `UnicodeDecodeError`. -/
def utf8Decode (bs : List Nat) : Option (List Nat) :=
  utf8DecodeLoop bs.length bs

/-- `_is_valid_utf8` (airprint-generate.py, lines 176-182): whether
`bytes_str.decode('utf-8')` succeeds. -/
def is_valid_utf8 (bs : List Nat) : Bool :=
  (utf8Decode bs).isSome

/-- Python slicing `bs[:n]` for an `int` index `n`, including the
negative-index convention: a negative `n` counts from the end of the
list, clamped at the empty list. -/
def pySliceTo (bs : List Nat) (n : Int) : List Nat :=
  if 0 ≤ n then bs.take n.toNat else bs.take ((bs.length : Int) + n).toNat

/-- The `while not self._is_valid_utf8(truncated_bytes)` loop of
`_validate_txt_record` (lines 171-172), written with explicit fuel:
drop the last byte until the byte list decodes as UTF-8.  The empty
list is valid, so `bs.length` drops always suffice. -/
def trimLoop : Nat → List Nat → List Nat
  | 0, bs => bs
  | fuel + 1, bs => if is_valid_utf8 bs then bs else trimLoop fuel bs.dropLast

/-- The result of the trimming loop of `_validate_txt_record`. -/
def trimToValidUtf8 (bs : List Nat) : List Nat :=
  trimLoop (bs.length + 1) bs

/-- `_validate_txt_record` (airprint-generate.py, lines 162-174).
If the UTF-8 encoding of `key=value` is at least 255 bytes long, the
encoded value is sliced to `254 - len(key.encode('utf-8')) - 1` bytes
(a Python slice, so a negative bound counts from the end), trimmed
backward byte-by-byte until it is valid UTF-8, and decoded; otherwise
the value is returned unchanged. -/
def validate_txt_record (key value : List Nat) : List Nat :=
  if 255 ≤ (utf8Encode key ++ [61] ++ utf8Encode value).length then
    (utf8Decode (trimToValidUtf8 (pySliceTo (utf8Encode value)
      (254 - ((utf8Encode key).length : Int) - 1)))).getD []
  else value

/-- `ALLOWED_DOCUMENT_TYPES` merged with `BLOCKED_DOCUMENT_TYPES`
(airprint-generate.py, lines 86-116): MIME type mapped to `true`
(allow-listed) or `false` (deny-listed). -/
def DOCUMENT_TYPES : List (List Nat × Bool) :=
  [(S ("application/pdf"), true),
   (S ("application/postscript"), true),
   (S ("application/vnd.cups-raster"), true),
   (S ("application/octet-stream"), true),
   (S ("image/urf"), true),
   (S ("image/png"), true),
   (S ("image/tiff"), true),
   (S ("image/jpeg"), true),
   (S ("image/gif"), true),
   (S ("text/plain"), true),
   (S ("text/html"), true),
   (S ("image/x-xwindowdump"), false),
   (S ("image/x-xpixmap"), false),
   (S ("image/x-xbitmap"), false),
   (S ("image/x-sun-raster"), false),
   (S ("image/x-sgi-rgb"), false),
   (S ("image/x-portable-pixmap"), false),
   (S ("image/x-portable-graymap"), false),
   (S ("image/x-portable-bitmap"), false),
   (S ("image/x-portable-anymap"), false),
   (S ("application/x-shell"), false),
   (S ("application/x-perl"), false),
   (S ("application/x-csource"), false),
   (S ("application/x-cshell"), false)]

/-- `fmt in DOCUMENT_TYPES` / `DOCUMENT_TYPES[fmt]` as one lookup:
`some b` when the MIME type is in the dictionary with flag `b`,
`none` when it is absent. -/
def lookupDocType (f : List Nat) : Option Bool :=
  (DOCUMENT_TYPES.find? (fun p => p.1 == f)).map (fun p => p.2)

/-- The `for fmt in attrs['document-format-supported']` loop of
`_process_printer_formats` (lines 186-194): allow-listed types go to
`formats` (first component), unrecognized types go to `deferred`
(second component), deny-listed types are skipped. -/
def partitionFormats : List (List Nat) → List (List Nat) × List (List Nat)
  | [] => ([], [])
  | f :: rest =>
    let p := partitionFormats rest
    match lookupDocType f with
    | some true => (f :: p.1, p.2)
    | some false => p
    | none => (p.1, f :: p.2)

/-- `','.join(strings)`. -/
def joinComma : List (List Nat) → List Nat
  | [] => []
  | [s] => s
  | s :: rest => s ++ 44 :: joinComma rest

/-- Split a string at the first occurrence of the code point `sep`:
`some (before, after)` when `sep` occurs, `none` otherwise. -/
def splitFirst (sep : Nat) : List Nat → Option (List Nat × List Nat)
  | [] => none
  | c :: rest =>
    if c = sep then some ([], rest)
    else (splitFirst sep rest).map (fun p => (c :: p.1, p.2))

/-- Python `s.split(sep, 1)`: a one- or two-element list. -/
def pySplit1 (s : List Nat) (sep : Nat) : List (List Nat) :=
  match splitFirst sep s with
  | none => [s]
  | some p => [p.1, p.2]

/-- Python list indexing `l[i]`, raising `IndexError` when out of
range. -/
def pyIndex {α : Type} (l : List α) (i : Nat) : Except PyErr α :=
  if h : i < l.length then .ok (l.get ⟨i, h⟩) else .error .indexError

/-- `_process_printer_formats` (airprint-generate.py, lines 184-201):
partition the reported MIME types, join allow-listed then deferred
types with commas, validate the `pdl` TXT record, and index element 1
of the result split at the first `=` (code point 61). -/
def process_printer_formats (docFormats : List (List Nat)) : Except PyErr (List Nat) :=
  let p := partitionFormats docFormats
  let allFormats := joinComma (p.1 ++ p.2)
  pyIndex (pySplit1 (validate_txt_record (S ("pdl")) allFormats) 61) 1

/-- The `for key, value in txt_records.items()` validation loop of
`_collect_cups_printers` (lines 279-284): skip falsy (empty) values,
validate, skip falsy validated values, then index element 1 of the
validated value split at the first `=`. -/
def validateTxtLoop : List (List Nat × List Nat) → Except PyErr (List (List Nat × List Nat))
  | [] => .ok []
  | (k, v) :: rest =>
    if v = [] then validateTxtLoop rest
    else
      let vv := validate_txt_record k v
      if vv = [] then validateTxtLoop rest
      else
        match pyIndex (pySplit1 vv 61) 1 with
        | .error e => .error e
        | .ok x =>
          match validateTxtLoop rest with
          | .error e => .error e
          | .ok r => .ok ((k, x) :: r)

/-- The per-printer body of `_collect_cups_printers` (lines 250-284)
from the point where the printer's attributes are in hand:
`_process_printer_formats` runs first, and its result becomes the
`pdl` entry of the TXT-record dictionary (surrounded by the other
entries, here abstracted as `pre` and `post`), which is then run
through the validation loop. -/
def collectCupsPrinterTxt (docFormats : List (List Nat))
    (pre post : List (List Nat × List Nat)) :
    Except PyErr (List (List Nat × List Nat)) :=
  match process_printer_formats docFormats with
  | .error e => .error e
  | .ok formats => validateTxtLoop (pre ++ [(S ("pdl"), formats)] ++ post)

/-- The CUPS attributes that `_get_printer_capabilities`
(airprint-generate.py, lines 203-223) reads.  Each field is `none`
when the key is absent from `attrs`.  `printer-bindings-supported` and
`sides-supported` hold keyword lists, `copies-supported` an integer,
the rest booleans, matching what the CUPS API reports. -/
structure CupsAttrs where
  printerBindingsSupported : Option (List String)
  sidesSupported : Option (List String)
  collateSupported : Option Bool
  copiesSupported : Option Int
  colorSupported : Option Bool
  printerBinaryOkSupported : Option Bool

/-- `_get_printer_capabilities` (lines 203-223): for each present
attribute apply its transform (`'T'` on the capability condition,
`None` otherwise) and keep only truthy results, in the insertion order
of `caps_mapping`.  The `copies-supported` condition is Python's
`x and x > 1` (falsy `0` and values `≤ 1` both yield `None`). -/
def get_printer_capabilities (a : CupsAttrs) : List (String × String) :=
  List.filterMap id
    [a.printerBindingsSupported.bind
       (fun x => if x = [] then none else some ("Bind", "T")),
     a.sidesSupported.bind
       (fun x => if ("two-sided-long-edge") ∈ x then some ("Duplex", "T") else none),
     a.collateSupported.bind
       (fun x => if x then some ("Collate", "T") else none),
     a.copiesSupported.bind
       (fun x => if x ≠ 0 ∧ 1 < x then some ("Copies", "T") else none),
     a.colorSupported.bind
       (fun x => if x then some ("Color", "T") else none),
     a.printerBinaryOkSupported.bind
       (fun x => if x then some ("Binary", "T") else none)]

/-- The length of the `missing_deps` list built by `main`
(airprint-generate.py, lines 422-426): one entry per requested mode
whose library failed to import. -/
def mainMissingDeps (argsCups argsAvahi hasCups hasAvahi : Bool) : Nat :=
  (if argsCups && !hasCups then 1 else 0) + (if argsAvahi && !hasAvahi then 1 else 0)

/-- `sum([args.cups, args.avahi])` (line 435): how many discovery
modes were requested. -/
def mainRequested (argsCups argsAvahi : Bool) : Nat :=
  (if argsCups then 1 else 0) + (if argsAvahi then 1 else 0)

/-- `PrinterService` (avahi-search.py, lines 38-46): one resolved
discovery record. -/
structure PrinterService where
  name : String
  host : String
  address : String
  port : Nat
  domain : String
  txt : List (String × String)
deriving DecidableEq

/-- Diagnostic messages emitted by `AvahiPrinterFinder`. -/
inductive LogEntry where
  | debugFound (name : String)
  | errorResolve (msg : String)
deriving DecidableEq

/-- The mutable state of `AvahiPrinterFinder` touched during browsing:
`receiving_events` and `printers` (avahi-search.py, lines 83-84),
plus the logger output. -/
structure FinderState where
  receivingEvents : Bool
  printers : List PrinterService
  log : List LogEntry
deriving DecidableEq

/-- One `ItemNew` announcement together with the outcome of the
`ResolveService` call made for it: `.ok` carries the resolved record,
`.error` carries the exception message when the resolve call raised. -/
structure ServiceEvent where
  name : String
  resolveResult : Except String PrinterService

/-- `_handle_service_found` (avahi-search.py, lines 104-153): mark
`receiving_events`, log the announcement, then either append the
resolved record to `printers` or log the resolution failure and leave
`printers` unchanged. -/
def handle_service_found (st : FinderState) (ev : ServiceEvent) : FinderState :=
  let st1 : FinderState :=
    { st with receivingEvents := true, log := st.log ++ [.debugFound ev.name] }
  match ev.resolveResult with
  | .ok p => { st1 with printers := st1.printers ++ [p] }
  | .error e => { st1 with log := st1.log ++ [.errorResolve e] }

/-- The finder state right after `__init__` (lines 83-84). -/
def initialFinderState : FinderState :=
  { receivingEvents := false, printers := [], log := [] }

/-- Delivery of a sequence of announcements to
`_handle_service_found`, in observation order. -/
def processEvents (st : FinderState) (evs : List ServiceEvent) : FinderState :=
  evs.foldl handle_service_found st

/-- The value `search` (avahi-search.py, lines 170-220) returns after
the main loop has delivered the announcements `evs`: the accumulated
`self.printers` list. -/
def search (evs : List ServiceEvent) : List PrinterService :=
  (processEvents initialFinderState evs).printers

/-- `SERVICE_TYPE` (avahi-search.py, line 51): the single service type
the finder browses. -/
def SERVICE_TYPE : String := "_ipp._tcp"

/-- `_parse_txt_records` (avahi-search.py, lines 88-102) applied to a
single record string: `txt.split('=', 1)` destructured as
`key, *value_parts`, with the value defaulting to the empty string. -/
def splitKV (txt : List Nat) : List Nat × List Nat :=
  match splitFirst 61 txt with
  | none => (txt, [])
  | some p => (p.1, p.2)

/-- Python dictionary assignment `d[k] = v` on an insertion-ordered
association list: overwrite in place when the key exists, append
otherwise. -/
def dictAssign (k v : List Nat) : List (List Nat × List Nat) → List (List Nat × List Nat)
  | [] => [(k, v)]
  | (k', v') :: rest =>
    if k' = k then (k', v) :: rest else (k', v') :: dictAssign k v rest

/-- `_parse_txt_records` (lines 88-102) over the whole TXT array:
fold each record's key/value into the dictionary. -/
def parse_txt_records (txtArray : List (List Nat)) : List (List Nat × List Nat) :=
  txtArray.foldl (fun d txt => dictAssign (splitKV txt).1 (splitKV txt).2 d) []

/-- Whether at least one announcement arrives in the `k`-th tick
window `((k-1)*I, k*I]` of the periodic `GLib.timeout_add` timer with
tick interval `I` (avahi-search.py, line 214), given the arrival
times `E` of the announcements. -/
def eventsInInterval (E : List Nat) (I k : Nat) : Bool :=
  E.any (fun t => decide ((k - 1) * I < t ∧ t ≤ k * I))

/-- `_check_timeout` (avahi-search.py, lines 160-168) acting on the
`receiving_events` flag: returns the new flag value and whether the
timer keeps running (`False` quits the main loop). -/
def check_timeout (receiving : Bool) : Bool × Bool :=
  if receiving then (false, true) else (false, false)

/-- The timer loop driven by `_check_timeout`: starting at tick `k`
with the given `receiving_events` flag, deliver the announcements of
each tick window (each sets the flag, line 114) and run
`_check_timeout` at the tick; return the index of the tick at which
the main loop quits.  `fuel` bounds the recursion and is always
chosen large enough to contain an idle tick. -/
def runTicks (E : List Nat) (I : Nat) : Nat → Nat → Bool → Nat
  | 0, k, _ => k
  | fuel + 1, k, receiving =>
    match check_timeout (receiving || eventsInInterval E I k) with
    | (r', true) => runTicks E I fuel (k + 1) r'
    | (_, false) => k

/-- The largest announcement arrival time. -/
def maxTime (E : List Nat) : Nat :=
  E.foldr max 0

/-- The tick index at which discovery idles out, for announcement
times `E` and tick interval `I`: ticks are numbered from 1, and the
flag starts `False` (avahi-search.py, line 83). -/
def quitTick (E : List Nat) (I : Nat) : Nat :=
  runTicks E I (maxTime E + 2) 1 false

/-- The absolute time at which discovery terminates: the quitting tick
fires at `quitTick * I`. -/
def quitTime (E : List Nat) (I : Nat) : Nat :=
  quitTick E I * I

/-- Every attribute name defined on `AvahiPrinterFinder`
(avahi-search.py): the class attributes (lines 51-52), the instance
attributes set in `__init__` (lines 73-86), and the methods.  Python
name lookup is case-sensitive, and no name `Search` is among them. -/
def avahiFinderAttrNames : List String :=
  ["SERVICE_TYPE", "BROWSE_TIMEOUT", "search_protocol", "search_domain",
   "timeout", "logger", "receiving_events", "printers", "_main_loop",
   "_server", "_parse_txt_records", "_handle_service_found",
   "_handle_all_for_now", "_check_timeout", "search"]

/-- Python attribute access `getattr(finder, name)`: `AttributeError`
when the name is not defined on the object. -/
def finderGetattr (name : String) : Except PyErr Unit :=
  if name ∈ avahiFinderAttrNames then .ok () else .error .attributeError

/-- `_collect_avahi_printers` (airprint-generate.py, lines 299-306):
return `[]` when DNS-SD collection is disabled, otherwise build the
finder and call `finder.Search()` — an attribute lookup of the name
`Search` — and on success return the discovered records (`evs` stands
for the announcements the event loop would deliver). -/
def collect_avahi_printers (useAvahi : Bool) (evs : List ServiceEvent) :
    Except PyErr (List PrinterService) :=
  if useAvahi then
    match finderGetattr ("Search") with
    | .error e => .error e
    | .ok _ => .ok (search evs)
  else .ok []

/-- The data of one shared CUPS printer as seen by the per-printer body
of `_collect_cups_printers`: its reported document formats and the
other TXT-record entries surrounding the `pdl` entry. -/
structure CupsPrinterAttrs where
  docFormats : List (List Nat)
  preTxt : List (List Nat × List Nat)
  postTxt : List (List Nat × List Nat)

/-- The `for name, details in conn.getPrinters().items()` loop of
`_collect_cups_printers` (lines 235-295) over the shared printers: the
loop body is unguarded, so the first exception raised by a per-printer
body aborts the whole collection. -/
def collectCupsList : List CupsPrinterAttrs →
    Except PyErr (List (List (List Nat × List Nat)))
  | [] => .ok []
  | p :: rest =>
    match collectCupsPrinterTxt p.docFormats p.preTxt p.postTxt with
    | .error e => .error e
    | .ok t =>
      match collectCupsList rest with
      | .error e => .error e
      | .ok r => .ok (t :: r)

/-- `_collect_cups_printers` (lines 225-297): return `[]` when CUPS
collection is disabled, otherwise run the unguarded per-printer loop
over the shared printers. -/
def collect_cups_printers (useCups : Bool) (shared : List CupsPrinterAttrs) :
    Except PyErr (List (List (List Nat × List Nat))) :=
  if useCups then collectCupsList shared else .ok []

/-- `generate` (airprint-generate.py, lines 379-388):
`self._collect_cups_printers() + self._collect_avahi_printers()`, the
CUPS collector evaluated first, with no exception handling around
either call; on success the number of printers found (the emitter then
runs, or `No printers found.` is printed when it is zero — neither
raises). -/
def generate (useCups useAvahi : Bool) (shared : List CupsPrinterAttrs)
    (evs : List ServiceEvent) : Except PyErr Nat :=
  match collect_cups_printers useCups shared with
  | .error e => .error e
  | .ok ps =>
    match collect_avahi_printers useAvahi evs with
    | .error e => .error e
    | .ok qs => .ok (ps.length + qs.length)

/-- The process exit status of `main` (lines 421-454): `sys.exit(1)`
fires when `missing_deps` is non-empty and its length equals the number
of requested modes; otherwise the unguarded `generator.generate()` call
(line 454) runs with `use_cups = args.cups and HAS_CUPS` and
`use_avahi = args.avahi and HAS_AVAHI` — an exception it raises is
uncaught, terminating the interpreter with status 1 — and on normal
return the process exits 0 regardless of how many printers were
found. -/
def mainExitCode (argsCups argsAvahi hasCups hasAvahi : Bool)
    (shared : List CupsPrinterAttrs) (evs : List ServiceEvent) : Nat :=
  if mainMissingDeps argsCups argsAvahi hasCups hasAvahi ≠ 0 ∧
      mainMissingDeps argsCups argsAvahi hasCups hasAvahi =
        mainRequested argsCups argsAvahi then 1
  else
    match generate (argsCups && hasCups) (argsAvahi && hasAvahi) shared evs with
    | .error _ => 1
    | .ok _ => 0

set_option maxRecDepth 8000

theorem bind_eq_some_symm {α β : Type} {o : Option α} {f : α → Option β} {b : β} :
    (some b = o.bind f) ↔ ∃ a, o = some a ∧ f a = some b := by
  rw [eq_comm, Option.bind_eq_some]

theorem processEvents_printers (st : FinderState) (evs : List ServiceEvent) :
    (processEvents st evs).printers
      = st.printers ++ evs.filterMap (fun ev => ev.resolveResult.toOption) := by
  induction evs generalizing st with
  | nil => simp [processEvents]
  | cons ev rest ih =>
    have hstep : processEvents st (ev :: rest)
        = processEvents (handle_service_found st ev) rest := rfl
    rw [hstep, ih]
    rcases ev with ⟨n, r⟩
    cases r <;> simp [handle_service_found, Except.toOption]

theorem processEvents_log (st : FinderState) (evs : List ServiceEvent) :
    (processEvents st evs).log
      = st.log ++ evs.flatMap (fun ev =>
          LogEntry.debugFound ev.name ::
            (match ev.resolveResult with
             | .ok _ => []
             | .error e => [LogEntry.errorResolve e])) := by
  induction evs generalizing st with
  | nil => simp [processEvents]
  | cons ev rest ih =>
    have hstep : processEvents st (ev :: rest)
        = processEvents (handle_service_found st ev) rest := rfl
    rw [hstep, ih]
    rcases ev with ⟨n, r⟩
    cases r <;> simp [handle_service_found]

/-- Claim C7: the capability mapping emits a `Duplex` flag iff
`sides-supported` contains `two-sided-long-edge`, emits a `Copies`
flag iff `copies-supported` is present and strictly greater than `1`,
and every emitted entry has value `T` — absent or false capabilities
produce no entry at all, never an explicit false value. -/
theorem get_printer_capabilities_spec (a : CupsAttrs) :
    (("Duplex", "T") ∈ get_printer_capabilities a ↔
      ∃ l, a.sidesSupported = some l ∧ "two-sided-long-edge" ∈ l)
    ∧ (("Copies", "T") ∈ get_printer_capabilities a ↔
      ∃ n, a.copiesSupported = some n ∧ 1 < n)
    ∧ ∀ p ∈ get_printer_capabilities a, p.2 = "T" := by
  refine ⟨?_, ?_, ?_⟩
  · simp +decide [get_printer_capabilities, bind_eq_some_symm,
      Option.ite_none_right_eq_some]
  · simp +decide [get_printer_capabilities, bind_eq_some_symm,
      Option.ite_none_right_eq_some]
    constructor
    · rintro ⟨n, h1, _, h3⟩
      exact ⟨n, h1, h3⟩
    · rintro ⟨n, h1, h3⟩
      exact ⟨n, h1, by omega, h3⟩
  · simp +decide [get_printer_capabilities, bind_eq_some_symm,
      Option.ite_none_right_eq_some]
    rintro x b (⟨_, _, _, _, h⟩ | ⟨_, _, _, _, h⟩ | ⟨_, _, h⟩ | ⟨_, _, _, _, h⟩ |
      ⟨_, _, h⟩ | ⟨_, _, h⟩) <;> exact h.symm

/-- Claim C2, amended: the network-discovery collector performs no
deduplication at all — the returned list contains every successfully
resolved announcement, in observation order; announcements with
identical composite key (name, host, port, service-type) all survive. -/
theorem search_keeps_all (evs : List ServiceEvent) :
    search evs = evs.filterMap (fun ev => ev.resolveResult.toOption) := by
  simp [search, processEvents_printers, initialFinderState]

/-- Claim C9: a failing `ResolveService` call is non-fatal — the failure
is logged, only that one announcement is dropped, the remaining
announcements are still processed, and the records collected so far
are unchanged by the failure. -/
theorem resolve_failure_nonfatal (pre post : List ServiceEvent) (nm msg : String) :
    (processEvents initialFinderState (pre ++ ⟨nm, .error msg⟩ :: post)).printers
        = (processEvents initialFinderState (pre ++ post)).printers
    ∧ (processEvents initialFinderState (pre ++ [⟨nm, .error msg⟩])).printers
        = (processEvents initialFinderState pre).printers
    ∧ LogEntry.errorResolve msg
        ∈ (processEvents initialFinderState (pre ++ ⟨nm, .error msg⟩ :: post)).log := by
  refine ⟨?_, ?_, ?_⟩
  · simp [processEvents_printers, Except.toOption]
  · simp [processEvents_printers, Except.toOption]
  · simp [processEvents_log]

/-- Claim C2, counterexample: two resolved announcements with the same
(name, host, port) — the service type is the constant `SERVICE_TYPE` —
and different TXT payloads both survive in the result of `search`, so
it is false that exactly one record per composite key remains. -/
theorem search_dedup_cex :
    search [⟨"P", .ok ⟨"P", "printer.local", "10.0.0.2", 631, "local", [("note", "a")]⟩⟩,
            ⟨"P", .ok ⟨"P", "printer.local", "10.0.0.2", 631, "local", [("note", "b")]⟩⟩]
      = [⟨"P", "printer.local", "10.0.0.2", 631, "local", [("note", "a")]⟩,
         ⟨"P", "printer.local", "10.0.0.2", 631, "local", [("note", "b")]⟩]
    ∧ ¬ ((search [⟨"P", .ok ⟨"P", "printer.local", "10.0.0.2", 631, "local", [("note", "a")]⟩⟩,
                  ⟨"P", .ok ⟨"P", "printer.local", "10.0.0.2", 631, "local", [("note", "b")]⟩⟩]).countP
          (fun q => q.name == "P" && q.host == "printer.local" && q.port == 631) ≤ 1) := by
  exact ⟨by decide, by decide⟩

/-- Claim C6: whenever DNS-SD collection is enabled (and the discovery
module imported), `_collect_avahi_printers` raises `AttributeError` and
never returns any record: it looks up `finder.Search()` but the finder
class defines only the lower-case `search`. -/
theorem collect_avahi_attribute_error (evs : List ServiceEvent) :
    collect_avahi_printers true evs = .error .attributeError := rfl

theorem mainGate_iff (c a hc ha : Bool) :
    (mainMissingDeps c a hc ha ≠ 0 ∧ mainMissingDeps c a hc ha = mainRequested c a)
    ↔ (mainRequested c a ≠ 0 ∧ (c = true → hc = false) ∧ (a = true → ha = false)) := by
  cases c <;> cases a <;> cases hc <;> cases ha <;>
    simp [mainMissingDeps, mainRequested]

theorem generate_avahi_error (useCups : Bool) (shared : List CupsPrinterAttrs)
    (evs : List ServiceEvent) :
    ∃ e, generate useCups true shared evs = Except.error e := by
  unfold generate
  rcases hcup : collect_cups_printers useCups shared with e | ps
  · exact ⟨e, rfl⟩
  · exact ⟨PyErr.attributeError, rfl⟩

/-- Claim C10, amended: the explicit `sys.exit(1)` fires iff at least
one discovery mode is requested and every requested mode is
structurally unavailable; otherwise the exit status is that of the
unguarded `generate()` call — non-zero exactly when a collector raises.
In particular, whenever DNS-SD mode is requested and available the
program exits non-zero (`finder.Search()` raises `AttributeError`),
while with only CUPS effective and no shared printers both collectors
return and the program exits zero even though zero printers were
found. -/
theorem mainExitCode_spec (c a hc ha : Bool) (shared : List CupsPrinterAttrs)
    (evs : List ServiceEvent) :
    (mainExitCode c a hc ha shared evs ≠ 0 ↔
      ((mainRequested c a ≠ 0 ∧ (c = true → hc = false) ∧ (a = true → ha = false))
        ∨ ∃ e, generate (c && hc) (a && ha) shared evs = Except.error e))
    ∧ ((a && ha) = true → mainExitCode c a hc ha shared evs = 1)
    ∧ mainExitCode true false true ha [] evs = 0 := by
  refine ⟨?_, ?_, ?_⟩
  · unfold mainExitCode
    by_cases hg : (mainMissingDeps c a hc ha ≠ 0 ∧
        mainMissingDeps c a hc ha = mainRequested c a)
    · rw [if_pos hg]
      exact iff_of_true one_ne_zero (Or.inl ((mainGate_iff c a hc ha).mp hg))
    · rw [if_neg hg]
      rcases hgen : generate (c && hc) (a && ha) shared evs with e | ps
      · exact iff_of_true one_ne_zero (Or.inr ⟨e, rfl⟩)
      · refine iff_of_false (by simp) ?_
        rintro (hgate | ⟨e, he⟩)
        · exact hg ((mainGate_iff c a hc ha).mpr hgate)
        · exact Except.noConfusion he
  · intro hava
    obtain ⟨ha1, ha2⟩ := (Bool.and_eq_true a ha).mp hava
    subst ha1
    subst ha2
    unfold mainExitCode
    have hgf : ¬(mainMissingDeps c true hc true ≠ 0 ∧
        mainMissingDeps c true hc true = mainRequested c true) := by
      cases c <;> cases hc <;> simp [mainMissingDeps, mainRequested]
    rw [if_neg hgf, show (true && true) = true from rfl]
    obtain ⟨e, he⟩ := generate_avahi_error (c && hc) shared evs
    rw [he]
  · unfold mainExitCode
    have hgf : ¬(mainMissingDeps true false true ha ≠ 0 ∧
        mainMissingDeps true false true ha = mainRequested true false) := by
      simp [mainMissingDeps, mainRequested]
    rw [if_neg hgf, show (true && true) = true from rfl,
      show (false && ha) = false from rfl]
    rfl

/-- Claim C10, counterexample: the original "if and only if" fails in
both directions.  With no discovery mode requested, "every requested
mode is structurally unavailable" holds vacuously yet the program exits
zero; and with DNS-SD requested and its library available — a requested
mode that is available — the unguarded `generate()` raises
`AttributeError` and the program exits non-zero instead of proceeding
and exiting zero. -/
theorem mainExitCode_cex :
    ¬ ((mainExitCode false false true true [] [] ≠ 0) ↔
       ((false = true → (true : Bool) = false) ∧ (false = true → (true : Bool) = false)))
    ∧ mainExitCode false true true true [] [] = 1 := by
  constructor
  · decide
  · decide

theorem splitFirst_none_iff (sep : Nat) (s : List Nat) :
    splitFirst sep s = none ↔ sep ∉ s := by
  induction s with
  | nil => simp [splitFirst]
  | cons c rest ih =>
    by_cases h : c = sep
    · subst h
      simp [splitFirst]
    · simp [splitFirst, h, ih]
      intro hmem
      omega

theorem splitFirst_some (sep : Nat) (s a b : List Nat)
    (h : splitFirst sep s = some (a, b)) : s = a ++ sep :: b ∧ sep ∉ a := by
  induction s generalizing a b with
  | nil => simp [splitFirst] at h
  | cons c rest ih =>
    by_cases hc : c = sep
    · subst hc
      simp [splitFirst] at h
      obtain ⟨ha, hb⟩ := h
      subst ha
      subst hb
      simp
    · simp [splitFirst, hc] at h
      obtain ⟨p, hp, hpa⟩ := h
      obtain ⟨h1, h2⟩ := ih p b hp
      subst hpa
      constructor
      · simp [h1]
      · simp [h2]
        omega

/-- Claim C8: `_parse_txt_records` splits each raw TXT string at the
first `=` (code point 61): the key is the `=`-free part before it, the
remainder is the value, and a string containing no `=` yields the whole
string as key with the empty string as value. -/
theorem parse_txt_split_spec (txt : List Nat) :
    parse_txt_records [txt] = [((splitKV txt).1, (splitKV txt).2)]
    ∧ (splitKV txt).1 ++ (if 61 ∈ txt then 61 :: (splitKV txt).2 else []) = txt
    ∧ 61 ∉ (splitKV txt).1
    ∧ (61 ∈ txt ∨ ((splitKV txt).1 = txt ∧ (splitKV txt).2 = [])) := by
  refine ⟨rfl, ?_⟩
  rcases h : splitFirst 61 txt with _ | ⟨a, b⟩
  · have hni : 61 ∉ txt := (splitFirst_none_iff 61 txt).mp h
    simp [splitKV, h, hni]
  · obtain ⟨h1, h2⟩ := splitFirst_some 61 txt a b h
    have hmem : 61 ∈ txt := by
      rw [h1]
      simp
    simp [splitKV, h, hmem, h2, h1.symm]

theorem maxTime_ge (E : List Nat) (t : Nat) (ht : t ∈ E) : t ≤ maxTime E := by
  induction E with
  | nil => simp at ht
  | cons e rest ih =>
    have : maxTime (e :: rest) = max e (maxTime rest) := rfl
    rw [this]
    rcases List.mem_cons.mp ht with h | h
    · subst h
      exact le_max_left _ _
    · exact le_trans (ih h) (le_max_right _ _)

theorem eventsInInterval_false_of_big (E : List Nat) (I k : Nat) (hI : 1 ≤ I)
    (hk : maxTime E + 1 ≤ k) : eventsInInterval E I k = false := by
  simp only [eventsInInterval, List.any_eq_false, decide_eq_true_eq]
  intro t ht
  have h1 := maxTime_ge E t ht
  have h2 : k - 1 ≤ (k - 1) * I := Nat.le_mul_of_pos_right _ hI
  omega

theorem runTicks_spec (E : List Nat) (I : Nat) :
    ∀ fuel k, (∃ j, k ≤ j ∧ j < k + fuel ∧ eventsInInterval E I j = false) →
      eventsInInterval E I (runTicks E I fuel k false) = false
      ∧ k ≤ runTicks E I fuel k false
      ∧ ∀ j, k ≤ j → j < runTicks E I fuel k false → eventsInInterval E I j = true := by
  intro fuel
  induction fuel with
  | zero =>
    rintro k ⟨j, h1, h2, _⟩
    omega
  | succ fuel ih =>
    rintro k ⟨j, h1, h2, h3⟩
    by_cases hk : eventsInInterval E I k = true
    · have hrun : runTicks E I (fuel + 1) k false = runTicks E I fuel (k + 1) false := by
        simp [runTicks, check_timeout, hk]
      have hex : ∃ j, k + 1 ≤ j ∧ j < (k + 1) + fuel ∧ eventsInInterval E I j = false := by
        have hne : j ≠ k := by
          intro he
          rw [he] at h3
          rw [hk] at h3
          simp at h3
        exact ⟨j, by omega, by omega, h3⟩
      obtain ⟨ha, hb, hc⟩ := ih (k + 1) hex
      rw [hrun]
      refine ⟨ha, by omega, ?_⟩
      intro j' hj1 hj2
      rcases Nat.eq_or_lt_of_le hj1 with he | hlt
      · rw [he] at hk
        exact hk
      · exact hc j' hlt hj2
    · have hk' : eventsInInterval E I k = false := by
        simpa using hk
      have hrun : runTicks E I (fuel + 1) k false = k := by
        simp [runTicks, check_timeout, hk']
      rw [hrun]
      exact ⟨hk', Nat.le_refl k, fun j' hj1 hj2 => by omega⟩

theorem quitTick_spec (E : List Nat) (I : Nat) (hI : 1 ≤ I) :
    eventsInInterval E I (quitTick E I) = false
    ∧ 1 ≤ quitTick E I
    ∧ ∀ j, 1 ≤ j → j < quitTick E I → eventsInInterval E I j = true := by
  apply runTicks_spec
  exact ⟨maxTime E + 1, by omega, by omega,
    eventsInInterval_false_of_big E I _ hI (by omega)⟩

/-- Claim C3, amended: with tick interval `I ≥ 1`, against an event
source whose announcements all arrive at times `≤ T` and that emits at
least one announcement in every tick window ending at or before `T`,
discovery terminates strictly after `T` and no later than `T + 2·I`
(the claimed bound `T + I` is too tight, see the counterexample): on
each tick, an idle window quits immediately, otherwise the
received-an-event flag is cleared and the loop continues. -/
theorem idle_timeout_bounds (E : List Nat) (I T : Nat) (hI : 1 ≤ I)
    (hT : ∀ t ∈ E, t ≤ T)
    (hdense : ∀ k, 1 ≤ k → k * I ≤ T → eventsInInterval E I k = true) :
    T < quitTime E I ∧ quitTime E I ≤ T + 2 * I := by
  obtain ⟨hq, hq1, hqmin⟩ := quitTick_spec E I hI
  constructor
  · by_contra hcon
    push_neg at hcon
    have hle : quitTick E I * I ≤ T := hcon
    have := hdense (quitTick E I) hq1 hle
    rw [hq] at this
    simp at this
  · rcases Nat.lt_or_ge (quitTick E I) 2 with h2 | h2
    · have hqe : quitTick E I = 1 := by omega
      have he : quitTime E I = quitTick E I * I := rfl
      rw [he, hqe, one_mul]
      omega
    · have hev := hqmin (quitTick E I - 1) (by omega) (by omega)
      simp only [eventsInInterval, List.any_eq_true, decide_eq_true_eq] at hev
      obtain ⟨t, htE, ht1, ht2⟩ := hev
      have h3 := hT t htE
      have e1 : (quitTick E I - 1 - 1) * I = quitTick E I * I - 2 * I := by
        have hq2 : quitTick E I - 1 - 1 = quitTick E I - 2 := by omega
        rw [hq2, Nat.sub_mul]
      have e3 : (quitTick E I - 1) * I = quitTick E I * I - 1 * I := Nat.sub_mul _ 1 I
      have e2 : 2 * I ≤ quitTick E I * I := Nat.mul_le_mul_right I h2
      have he : quitTime E I = quitTick E I * I := rfl
      rw [he]
      omega

/-- Claim C3, counterexample: with tick interval `I = 2` and
announcements at times 1, 3, 5 (so `T = 5`, and every tick window up
to `T` contains an announcement), the loop only idles out at tick 4,
i.e. at time `8 > T + I = 7` — refuting the claimed `T + I` bound. -/
theorem idle_timeout_cex :
    quitTime [1, 3, 5] 2 = 8
    ∧ maxTime [1, 3, 5] = 5
    ∧ eventsInInterval [1, 3, 5] 2 1 = true
    ∧ eventsInInterval [1, 3, 5] 2 2 = true
    ∧ ¬ (quitTime [1, 3, 5] 2 ≤ 5 + 2) := by
  exact ⟨by decide, by decide, by decide, by decide, by decide⟩

/-- Witness for the amended C3 bound at `E = [1, 2]`, `I = 1`,
`T = 2`. -/
theorem idle_timeout_bounds_witness :
    (∀ k, 1 ≤ k → k * 1 ≤ 2 → eventsInInterval [1, 2] 1 k = true)
    ∧ 2 < quitTime [1, 2] 1 ∧ quitTime [1, 2] 1 ≤ 2 + 2 * 1 := by
  have hd : ∀ k, 1 ≤ k → k * 1 ≤ 2 → eventsInInterval [1, 2] 1 k = true := by
    intro k h1 h2
    have hk : k = 1 ∨ k = 2 := by omega
    rcases hk with rfl | rfl <;> decide
  exact ⟨hd, idle_timeout_bounds [1, 2] 1 2 (by decide) (by decide) hd⟩

theorem utf8EncodeChar_ne_nil (c : Nat) : utf8EncodeChar c ≠ [] := by
  unfold utf8EncodeChar
  split_ifs <;> simp

theorem utf8EncodeChar_mem (c b : Nat) (hb : b ∈ utf8EncodeChar c) :
    b = c ∨ 0x80 ≤ b := by
  unfold utf8EncodeChar at hb
  split_ifs at hb <;> simp at hb <;> omega

theorem decodeOne_append (c : Nat) (rest : List Nat) (h : isScalar c = true) :
    decodeOne (utf8EncodeChar c ++ rest) = some (c, rest) := by
  have hs : c < 0xD800 ∨ (0xE000 ≤ c ∧ c < 0x110000) := by
    simpa [isScalar, Bool.or_eq_true, Bool.and_eq_true, decide_eq_true_eq] using h
  unfold utf8EncodeChar
  split_ifs with h1 h2 h3
  · simp only [List.cons_append, List.nil_append, decodeOne]
    rw [if_pos h1]
  · simp only [List.cons_append, List.nil_append, decodeOne]
    rw [if_neg (by omega), if_neg (by omega), if_pos (by omega)]
    split_ifs <;>
      first
        | (simp only [Option.some.injEq, Prod.mk.injEq]
           exact ⟨by omega, trivial⟩)
        | omega
  · simp only [List.cons_append, List.nil_append, decodeOne]
    rw [if_neg (by omega), if_neg (by omega), if_neg (by omega), if_pos (by omega)]
    split_ifs <;>
      first
        | (simp only [Option.some.injEq, Prod.mk.injEq]
           exact ⟨by omega, trivial⟩)
        | omega
  · simp only [List.cons_append, List.nil_append, decodeOne]
    rw [if_neg (by omega), if_neg (by omega), if_neg (by omega), if_neg (by omega),
      if_pos (by omega)]
    split_ifs <;>
      first
        | (simp only [Option.some.injEq, Prod.mk.injEq]
           exact ⟨by omega, trivial⟩)
        | omega

theorem decodeOne_inv (bs : List Nat) (c : Nat) (rest : List Nat)
    (h : decodeOne bs = some (c, rest)) : utf8EncodeChar c ++ rest = bs := by
  rcases bs with _ | ⟨b, _ | ⟨b1, _ | ⟨b2, _ | ⟨b3, bs4⟩⟩⟩⟩ <;>
    (simp only [decodeOne] at h
     try split_ifs at h) <;>
    first
      | (simp only [Option.some.injEq, Prod.mk.injEq] at h
         obtain ⟨hc, hr⟩ := h
         subst hc
         subst hr
         unfold utf8EncodeChar
         split_ifs <;>
           first
             | (exfalso; omega)
             | (simp only [List.cons_append, List.nil_append, List.cons.injEq, and_true]
                try omega))
      | simp at h

theorem decodeOne_lt (bs : List Nat) (c : Nat) (rest : List Nat)
    (h : decodeOne bs = some (c, rest)) : rest.length < bs.length := by
  have hinv := decodeOne_inv bs c rest h
  have hne := utf8EncodeChar_ne_nil c
  rw [← hinv, List.length_append]
  have hpos : 0 < (utf8EncodeChar c).length := List.length_pos.mpr hne
  omega

theorem utf8DecodeLoop_encode : ∀ fuel s, (utf8Encode s).length ≤ fuel →
    (∀ c ∈ s, isScalar c = true) → utf8DecodeLoop fuel (utf8Encode s) = some s := by
  intro fuel
  induction fuel with
  | zero =>
    intro s hlen hs
    have hnil : utf8Encode s = [] := List.length_eq_zero.mp (by omega)
    cases s with
    | nil => simp [utf8DecodeLoop, utf8Encode]
    | cons c s' =>
      exfalso
      have happ : utf8EncodeChar c ++ utf8Encode s' = [] := by
        simpa [utf8Encode] using hnil
      exact utf8EncodeChar_ne_nil c (List.append_eq_nil.mp happ).1
  | succ fuel ih =>
    intro s hlen hs
    cases s with
    | nil => simp [utf8Encode, utf8DecodeLoop, decodeOne]
    | cons c s' =>
      have henc : utf8Encode (c :: s') = utf8EncodeChar c ++ utf8Encode s' := by
        simp [utf8Encode]
      rw [henc]
      have hdec := decodeOne_append c (utf8Encode s') (hs c (by simp))
      simp only [utf8DecodeLoop, hdec]
      have hlen' : (utf8Encode s').length ≤ fuel := by
        rw [henc, List.length_append] at hlen
        have hpos := List.length_pos.mpr (utf8EncodeChar_ne_nil c)
        omega
      rw [ih s' hlen' (fun d hd => hs d (by simp [hd]))]
      rfl

theorem utf8Decode_encode (s : List Nat) (hs : ∀ c ∈ s, isScalar c = true) :
    utf8Decode (utf8Encode s) = some s :=
  utf8DecodeLoop_encode _ s (Nat.le_refl _) hs

theorem utf8DecodeLoop_inv : ∀ fuel bs cps, utf8DecodeLoop fuel bs = some cps →
    utf8Encode cps = bs := by
  intro fuel
  induction fuel with
  | zero =>
    intro bs cps h
    simp only [utf8DecodeLoop] at h
    split_ifs at h with hbs
    subst hbs
    obtain rfl : [] = cps := by simpa using h
    rfl
  | succ fuel ih =>
    intro bs cps h
    simp only [utf8DecodeLoop] at h
    rcases hone : decodeOne bs with _ | ⟨c, rest⟩
    · rw [hone] at h
      split_ifs at h with hbs
      subst hbs
      obtain rfl : [] = cps := by simpa using h
      rfl
    · rw [hone] at h
      simp only [Option.map_eq_some'] at h
      obtain ⟨tail, htl, hcps⟩ := h
      subst hcps
      have htail := ih rest tail htl
      rw [← decodeOne_inv bs c rest hone, ← htail]
      simp [utf8Encode]

theorem utf8Decode_inv (bs cps : List Nat) (h : utf8Decode bs = some cps) :
    utf8Encode cps = bs :=
  utf8DecodeLoop_inv _ bs cps h

theorem utf8Encode_no61 (s : List Nat) (h : 61 ∉ s) : 61 ∉ utf8Encode s := by
  intro hmem
  simp only [utf8Encode, List.mem_flatMap] at hmem
  obtain ⟨c, hc, hb⟩ := hmem
  rcases utf8EncodeChar_mem c 61 hb with he | he
  · exact h (he ▸ hc)
  · omega

theorem utf8Decode_no61 (bs cps : List Nat) (h : utf8Decode bs = some cps)
    (hb : 61 ∉ bs) : 61 ∉ cps := by
  intro hmem
  apply hb
  rw [← utf8Decode_inv bs cps h]
  simp only [utf8Encode, List.mem_flatMap]
  exact ⟨61, hmem, by decide⟩

theorem trimLoop_spec : ∀ fuel bs, bs.length ≤ fuel →
    is_valid_utf8 (trimLoop fuel bs) = true ∧ trimLoop fuel bs <+: bs := by
  intro fuel
  induction fuel with
  | zero =>
    intro bs hlen
    have hbs : bs = [] := List.length_eq_zero.mp (by omega)
    subst hbs
    exact ⟨rfl, List.prefix_rfl⟩
  | succ fuel ih =>
    intro bs hlen
    by_cases hv : is_valid_utf8 bs = true
    · simp [trimLoop, hv, List.prefix_rfl]
    · have hbs : bs ≠ [] := by
        intro he
        subst he
        exact hv rfl
      have hlen' : bs.dropLast.length ≤ fuel := by
        rw [List.length_dropLast]
        have hpos := List.length_pos.mpr hbs
        omega
      obtain ⟨h1, h2⟩ := ih bs.dropLast hlen'
      have hrun : trimLoop (fuel + 1) bs = trimLoop fuel bs.dropLast := by
        simp [trimLoop, hv]
      rw [hrun]
      exact ⟨h1, h2.trans (List.dropLast_prefix bs)⟩

theorem trimToValidUtf8_spec (bs : List Nat) :
    is_valid_utf8 (trimToValidUtf8 bs) = true ∧ trimToValidUtf8 bs <+: bs :=
  trimLoop_spec _ bs (by omega)

theorem pySliceTo_spec (bs : List Nat) (n : Int) :
    pySliceTo bs n <+: bs ∧ (0 ≤ n → (pySliceTo bs n).length ≤ n.toNat) := by
  unfold pySliceTo
  split_ifs with h
  · exact ⟨List.take_prefix _ _, fun _ => by simp [List.length_take_le]⟩
  · exact ⟨List.take_prefix _ _, fun hc => absurd hc h⟩

theorem validate_txt_record_no61 (key value : List Nat) (h : 61 ∉ value) :
    61 ∉ validate_txt_record key value := by
  unfold validate_txt_record
  split_ifs with hlen
  · intro hmem
    obtain ⟨hval, hpre⟩ := trimToValidUtf8_spec (pySliceTo (utf8Encode value)
      (254 - ((utf8Encode key).length : Int) - 1))
    obtain ⟨hpre2, _⟩ := pySliceTo_spec (utf8Encode value)
      (254 - ((utf8Encode key).length : Int) - 1)
    rw [is_valid_utf8] at hval
    obtain ⟨cps, hcps⟩ := Option.isSome_iff_exists.mp hval
    rw [hcps, Option.getD_some] at hmem
    have htrim61 : 61 ∉ trimToValidUtf8 (pySliceTo (utf8Encode value)
        (254 - ((utf8Encode key).length : Int) - 1)) := fun hx =>
      utf8Encode_no61 value h (List.IsPrefix.subset hpre2 (List.IsPrefix.subset hpre hx))
    exact utf8Decode_no61 _ cps hcps htrim61 hmem
  · exact h

/-- Claim C1, amended: provided the UTF-8 encoding of the key is at
most 253 bytes (so the slice bound is non-negative — the original
claim fails for longer keys, see the counterexample), the value
returned by `_validate_txt_record` makes the UTF-8 encoding of
`key=value` at most 254 bytes, is valid UTF-8 (the trim removes whole
bytes from the end until the sequence decodes), and its encoding is a
byte prefix of the original value's encoding — only the value, never
the key, is truncated. -/
theorem validate_txt_record_bounds (key value : List Nat)
    (hk : (utf8Encode key).length ≤ 253)
    (hv : ∀ c ∈ value, isScalar c = true) :
    (utf8Encode key ++ [61] ++ utf8Encode (validate_txt_record key value)).length ≤ 254
    ∧ is_valid_utf8 (utf8Encode (validate_txt_record key value)) = true
    ∧ utf8Encode (validate_txt_record key value) <+: utf8Encode value := by
  unfold validate_txt_record
  split_ifs with hlen
  · obtain ⟨hval, hpre⟩ := trimToValidUtf8_spec (pySliceTo (utf8Encode value)
      (254 - ((utf8Encode key).length : Int) - 1))
    obtain ⟨hpre2, hlen2⟩ := pySliceTo_spec (utf8Encode value)
      (254 - ((utf8Encode key).length : Int) - 1)
    rw [is_valid_utf8] at hval
    obtain ⟨cps, hcps⟩ := Option.isSome_iff_exists.mp hval
    rw [hcps, Option.getD_some]
    have henc : utf8Encode cps = trimToValidUtf8 (pySliceTo (utf8Encode value)
        (254 - ((utf8Encode key).length : Int) - 1)) := utf8Decode_inv _ cps hcps
    refine ⟨?_, ?_, ?_⟩
    · rw [henc]
      simp only [List.length_append, List.length_singleton]
      have h0 : (0 : Int) ≤ 254 - ((utf8Encode key).length : Int) - 1 := by omega
      have hl2 := hlen2 h0
      have hl3 := List.IsPrefix.length_le hpre
      omega
    · rw [henc, is_valid_utf8, hcps]
      rfl
    · rw [henc]
      exact List.IsPrefix.trans hpre hpre2
  · refine ⟨by omega, ?_, List.prefix_rfl⟩
    rw [is_valid_utf8, utf8Decode_encode value hv]
    rfl

theorem joinComma_no61 : ∀ l : List (List Nat), (∀ s ∈ l, 61 ∉ s) → 61 ∉ joinComma l := by
  intro l
  induction l with
  | nil =>
    intro _
    simp [joinComma]
  | cons s rest ih =>
    intro h
    cases rest with
    | nil => simpa [joinComma] using h s (by simp)
    | cons t rest' =>
      have h1 : 61 ∉ s := h s (by simp)
      have h2 : ∀ x ∈ t :: rest', 61 ∉ x := fun x hx => h x (by simp [hx])
      intro hmem
      simp only [joinComma, List.mem_append, List.mem_cons] at hmem
      rcases hmem with hx | hx | hx
      · exact h1 hx
      · omega
      · exact ih h2 hx

theorem partitionFormats_mem : ∀ (l : List (List Nat)) (f : List Nat),
    f ∈ (partitionFormats l).1 ++ (partitionFormats l).2 → f ∈ l := by
  intro l
  induction l with
  | nil =>
    intro f hf
    simp [partitionFormats] at hf
  | cons g rest ih =>
    intro f hf
    cases hdt : lookupDocType g with
    | none =>
      have hpf : partitionFormats (g :: rest)
          = ((partitionFormats rest).1, g :: (partitionFormats rest).2) := by
        simp [partitionFormats, hdt]
      rw [hpf] at hf
      simp only [List.mem_append, List.mem_cons] at hf
      simp only [List.mem_cons]
      have hih : f ∈ (partitionFormats rest).1 ∨ f ∈ (partitionFormats rest).2 → f ∈ rest :=
        fun hx => ih f (List.mem_append.mpr hx)
      tauto
    | some b =>
      cases b with
      | false =>
        have hpf : partitionFormats (g :: rest) = partitionFormats rest := by
          simp [partitionFormats, hdt]
        rw [hpf] at hf
        simp only [List.mem_cons]
        exact Or.inr (ih f hf)
      | true =>
        have hpf : partitionFormats (g :: rest)
            = (g :: (partitionFormats rest).1, (partitionFormats rest).2) := by
          simp [partitionFormats, hdt]
        rw [hpf] at hf
        simp only [List.mem_append, List.mem_cons] at hf
        simp only [List.mem_cons]
        have hih : f ∈ (partitionFormats rest).1 ∨ f ∈ (partitionFormats rest).2 → f ∈ rest :=
          fun hx => ih f (List.mem_append.mpr hx)
        tauto

theorem process_printer_formats_no61 (docFormats : List (List Nat))
    (h : ∀ f ∈ docFormats, 61 ∉ f) :
    process_printer_formats docFormats = .error .indexError := by
  have hall : 61 ∉ joinComma ((partitionFormats docFormats).1 ++ (partitionFormats docFormats).2) := by
    apply joinComma_no61
    intro s hs
    exact h s (partitionFormats_mem docFormats s hs)
  have hv61 := validate_txt_record_no61 (S ("pdl")) _ hall
  have hsf : splitFirst 61 (validate_txt_record (S ("pdl"))
      (joinComma ((partitionFormats docFormats).1 ++ (partitionFormats docFormats).2)))
      = none := by
    rw [splitFirst_none_iff]
    exact hv61
  unfold process_printer_formats
  simp [pySplit1, hsf, pyIndex]

/-- Claim C5: for a shared CUPS printer whose reported document formats
contain no `=` (the normal case for MIME types), the per-printer body
of `_collect_cups_printers` raises `IndexError` instead of producing a
record: `_validate_txt_record` returns the bare value, and
`_process_printer_formats` indexes element 1 of that value split at
`=`, which does not exist. -/
theorem collect_cups_printer_index_error (docFormats : List (List Nat))
    (pre post : List (List Nat × List Nat)) (h : ∀ f ∈ docFormats, 61 ∉ f) :
    collectCupsPrinterTxt docFormats pre post = .error .indexError := by
  unfold collectCupsPrinterTxt
  rw [process_printer_formats_no61 docFormats h]

/-- Witness for C5 at the single reported format `application/pdf`. -/
theorem collect_cups_printer_index_error_witness :
    (∀ f ∈ [S ("application/pdf")], 61 ∉ f)
    ∧ collectCupsPrinterTxt [S ("application/pdf")] [] [] = .error .indexError :=
  ⟨by decide, collect_cups_printer_index_error [S ("application/pdf")] [] [] (by decide)⟩

/-- Claim C4: the partition of the spec's example format list is exactly
as claimed — the allow-listed PDF kept, the deny-listed bitmap dropped,
the unknown type deferred to the end — but `_process_printer_formats`
then raises `IndexError` on `.split('=', 1)[1]` instead of returning
the list: the code contradicts the clear intent, a code bug. -/
theorem process_printer_formats_bug :
    partitionFormats [S ("application/pdf"), S ("image/x-xbitmap"),
        S ("application/vnd.example-unknown")]
      = ([S ("application/pdf")], [S ("application/vnd.example-unknown")])
    ∧ process_printer_formats [S ("application/pdf"), S ("image/x-xbitmap"),
        S ("application/vnd.example-unknown")]
      = .error .indexError :=
  ⟨by decide, rfl⟩

/-- Claim C1, counterexample: for a 254-byte key, the slice bound
`254 - len(key) - 1` is negative, so the Python slice keeps all but the
last bytes of the value instead of truncating it, and the returned
record encodes to 256 bytes — the claimed 254-byte bound is false for
keys longer than 253 bytes. -/
theorem validate_txt_record_cex :
    ¬ ((utf8Encode (List.replicate 254 97) ++ [61]
        ++ utf8Encode (validate_txt_record (List.replicate 254 97) [98, 98])).length ≤ 254) := by
  decide

/-- Witness for the amended C1 at key `pdl`, value `a`. -/
theorem validate_txt_record_bounds_witness :
    ((utf8Encode (S ("pdl"))).length ≤ 253 ∧ ∀ c ∈ [97], isScalar c = true)
    ∧ ((utf8Encode (S ("pdl")) ++ [61]
        ++ utf8Encode (validate_txt_record (S ("pdl")) [97])).length ≤ 254
      ∧ is_valid_utf8 (utf8Encode (validate_txt_record (S ("pdl")) [97])) = true
      ∧ utf8Encode (validate_txt_record (S ("pdl")) [97]) <+: utf8Encode [97]) :=
  ⟨⟨by decide, by decide⟩, validate_txt_record_bounds (S ("pdl")) [97] (by decide) (by decide)⟩

/-- Witness for the amended C2: one resolved and one failed
announcement yield exactly the resolved record. -/
theorem search_keeps_all_witness :
    search [⟨("A"), .ok ⟨("A"), ("host1"), ("10.0.0.9"), 631, ("local"), []⟩⟩,
            ⟨("B"), .error ("withdrawn")⟩]
      = [⟨("A"), ("host1"), ("10.0.0.9"), 631, ("local"), []⟩] :=
  (search_keeps_all [⟨("A"), .ok ⟨("A"), ("host1"), ("10.0.0.9"), 631, ("local"), []⟩⟩,
    ⟨("B"), .error ("withdrawn")⟩]).trans (by decide)

/-- Witness for C9 at a single failing announcement. -/
theorem resolve_failure_nonfatal_witness :
    (processEvents initialFinderState ([] ++ ⟨("P"), .error ("gone")⟩ :: [])).printers
      = (processEvents initialFinderState ([] ++ [])).printers :=
  (resolve_failure_nonfatal [] [] ("P") ("gone")).1

/-- Witness for C6 with an empty announcement stream. -/
theorem collect_avahi_attribute_error_witness :
    collect_avahi_printers true [] = .error .attributeError :=
  collect_avahi_attribute_error []

/-- Witness for C7: `two-sided-long-edge` present emits the `Duplex`
flag. -/
theorem get_printer_capabilities_spec_witness :
    ("Duplex", "T") ∈ get_printer_capabilities
      ⟨none, some [("two-sided-long-edge")], none, some 1, none, none⟩ := by
  have h := get_printer_capabilities_spec
    ⟨none, some [("two-sided-long-edge")], none, some 1, none, none⟩
  exact h.1.mpr ⟨[("two-sided-long-edge")], rfl, by simp⟩

/-- Witness for C8 on the record `rp=printers/x`. -/
theorem parse_txt_split_spec_witness :
    parse_txt_records [S ("rp=printers/x")] = [(S ("rp"), S ("printers/x"))] := by
  have h := parse_txt_split_spec (S ("rp=printers/x"))
  rw [h.1]
  decide

/-- Witness for the amended C10: with DNS-SD requested and available the
program exits 1, and with CUPS effective over zero shared printers it
exits 0. -/
theorem mainExitCode_spec_witness :
    mainExitCode false true true true [] [] = 1
    ∧ mainExitCode true false true true [] [] = 0 := by
  have h := mainExitCode_spec false true true true
    ([] : List CupsPrinterAttrs) ([] : List ServiceEvent)
  exact ⟨h.2.1 (by decide), h.2.2⟩
